import Mathlib

/-!
Verification of the destructuring pattern matcher (`match.py`).

The embedding models the Python 2 source directly:

* `Val` is the universe of runtime values used by the matcher: ints,
  bools, strings, `None`, lists, tuples and string-keyed dicts.
* `Pat` is the universe of patterns: the same value shapes plus the
  `_Arg` capture placeholder (`A_` is `Pat.arg none`, `A/n` is
  `Pat.arg (some n)`).
* `pyIsinstance p v` models Python 2's `isinstance(v, type(p))`; note
  that in Python 2 `bool` is a subclass of `int`, so an `int` literal
  pattern accepts a `bool` value.
* `pyEq p v` models Python's `p == v` on this universe (numeric
  cross-equality between `int` and `bool`, element-wise equality of
  lists/tuples, key-wise equality of dicts, and a capture placeholder
  is never `==` to a runtime value, matching CPython identity
  comparison of `_Arg` objects).
* `pyMatch` is the source's `match`, `match_and_bind` the source's
  `match_and_bind` (Python's `sorted` is stable, modelled by a stable
  insertion sort).
* `M` is the source's match-expression class with its `matches`
  fallback list, optional default `d` and `destruct` flag;
  `M.evalMatch` is `M.match` (also reachable as `__eq__`), `M.orOp`
  is `__or__`, `M.invert` is `__invert__`.
-/

inductive Val where
  | int : Int → Val
  | bool : Bool → Val
  | str : String → Val
  | none : Val
  | list : List Val → Val
  | tuple : List Val → Val
  | dict : List (String × Val) → Val

inductive Pat where
  | arg : Option Int → Pat
  | int : Int → Pat
  | bool : Bool → Pat
  | str : String → Pat
  | none : Pat
  | list : List Pat → Pat
  | tuple : List Pat → Pat
  | dict : List (String × Pat) → Pat

/-- Python 2's `isinstance(v, type(p))` for a non-placeholder pattern
`p`: exact class match, except that `bool` is a subclass of `int`, so
an `int`-typed pattern accepts a `bool` value. A placeholder pattern is
handled before this test in `match`, and no runtime value is an `_Arg`
instance, hence `false` for `Pat.arg`. -/
def pyIsinstance : Pat → Val → Bool
  | .int _, .int _ => true
  | .int _, .bool _ => true
  | .bool _, .bool _ => true
  | .str _, .str _ => true
  | .none, .none => true
  | .list _, .list _ => true
  | .tuple _, .tuple _ => true
  | .dict _, .dict _ => true
  | _, _ => false

/-- Key lookup in a dict value, used to model Python dict equality. -/
def lookupVal (k : String) : List (String × Val) → Option Val
  | [] => Option.none
  | e :: es => if e.1 = k then some e.2 else lookupVal k es

mutual
/-- Python's `p == v` between a pattern tree and a runtime value.
An `_Arg` placeholder defines no `__eq__`, so CPython falls back to
identity, which never holds against a runtime value. `int` and `bool`
compare numerically (`1 == True`). Lists and tuples compare
element-wise and never equal each other; dicts compare key-wise. -/
def pyEq : Pat → Val → Bool
  | .int n, .int m => n == m
  | .int n, .bool b => n == (if b then 1 else 0)
  | .bool b, .int m => (if b then (1 : Int) else 0) == m
  | .bool b, .bool c => b == c
  | .str s, .str t => s == t
  | .none, .none => true
  | .list ps, .list vs => pyEqList ps vs
  | .tuple ps, .tuple vs => pyEqList ps vs
  | .dict es, .dict fs => es.length == fs.length && pyEqEntries es fs
  | _, _ => false

/-- Element-wise Python equality of a pattern list against a value list. -/
def pyEqList : List Pat → List Val → Bool
  | [], [] => true
  | p :: ps, v :: vs => pyEq p v && pyEqList ps vs
  | _, _ => false

/-- Each pattern-dict entry must find an equal value under its key. -/
def pyEqEntries : List (String × Pat) → List (String × Val) → Bool
  | [], _ => true
  | e :: es, fs =>
      (match lookupVal e.1 fs with
       | some v => pyEq e.2 v
       | Option.none => false) && pyEqEntries es fs
end

/-- A produced binding: `_Arg.bind(value)` keeps the placeholder's
optional capture index `argn` and records the bound value. -/
structure Binding where
  argn : Option Int
  value : Val

mutual
/-- The source's `match(p, v)`: returns the matched flag and the list
of raw bindings. A placeholder matches anything and emits one binding;
otherwise the value must be an instance of the pattern's type, then
`p == v` succeeds with no bindings, then lists/tuples of equal length
are folded element-wise, and every other combination fails. -/
def pyMatch : Pat → Val → Bool × List Binding
  | .arg n, v => (true, [⟨n, v⟩])
  | p, v =>
    if pyIsinstance p v = false then (false, [])
    else if pyEq p v then (true, [])
    else
      match p, v with
      | .list ps, .list vs =>
          if ps.length ≠ vs.length then (false, []) else matchZip ps vs (true, [])
      | .tuple ps, .tuple vs =>
          if ps.length ≠ vs.length then (false, []) else matchZip ps vs (true, [])
      | _, _ => (false, [])

/-- The source's `reduce(combine, zip(p, v), (True, []))`: once failed
the accumulator is passed through unchanged; a successful element
appends its bindings; a failed element clears nothing but flips the
flag (bindings gathered so far are kept in the pair and later discarded
by `match_and_bind`). -/
def matchZip : List Pat → List Val → Bool × List Binding → Bool × List Binding
  | [], _, acc => acc
  | _ :: _, [], acc => acc
  | p :: ps, v :: vs, acc =>
      if acc.1 = false then matchZip ps vs acc
      else
        let r := pyMatch p v
        if r.1 then matchZip ps vs (true, acc.2 ++ r.2)
        else matchZip ps vs (false, acc.2)
end

/-- Concatenated bindings of all the element matches of a sequence. -/
def zipBinds : List Pat → List Val → List Binding
  | [], _ => []
  | _ :: _, [] => []
  | p :: ps, v :: vs => (pyMatch p v).2 ++ zipBinds ps vs

/-- Stable insertion of a binding after all entries whose capture index
is not greater, modelling Python's stable `sorted`. -/
def insertSorted (b : Binding) : List Binding → List Binding
  | [] => [b]
  | c :: cs =>
      if c.argn.getD 0 ≤ b.argn.getD 0 then c :: insertSorted b cs
      else b :: c :: cs

/-- Stable sort of bindings ascending by capture index (Python's
`sorted(..., key=lambda x: x.argn)` on an already-filtered list). -/
def sortBindings (bs : List Binding) : List Binding :=
  bs.foldl (fun acc b => insertSorted b acc) []

/-- The source's `match_and_bind(p, v)`: `None` when the match fails,
otherwise the tuple of bound values of the index-tagged bindings,
sorted ascending by index. -/
def match_and_bind (p : Pat) (v : Val) : Option (List Val) :=
  let r := pyMatch p v
  if r.1 = false then Option.none
  else some ((sortBindings (r.2.filter fun b => b.argn.isSome)).map Binding.value)

/-- The source's class `M`: primary pattern, the mutable `matches`
fallback list, the optional default `d` (`has_d` is `d.isSome`) and the
`destruct` flag. -/
inductive M where
  | mk : Pat → List M → Option Val → Bool → M

def M.pattern : M → Pat
  | .mk p _ _ _ => p

def M.matches : M → List M
  | .mk _ ms _ _ => ms

def M.d : M → Option Val
  | .mk _ _ dv _ => dv

def M.destruct : M → Bool
  | .mk _ _ _ b => b

/-- `M.__init__`: fresh expression, empty fallback list, destructuring
mode on. -/
def M.make (p : Pat) (dv : Option Val) : M := .mk p [] dv true

/-- `M.__invert__` (`~`): switch the expression to non-destructuring
(boolean test) mode. -/
def M.invert : M → M
  | .mk p ms dv _ => .mk p ms dv false

/-- `M._append`: extend the fallback list on the right. -/
def M.append_ : M → List M → M
  | .mk p ms dv b, others => .mk p (ms ++ others) dv b

/-- `M.__or__` (`self | other`): append `[self] + self.matches` to
`other`'s fallback list and return `other`, so that earlier-declared
expressions are tried first. -/
def M.orOp (self other : M) : M := other.append_ ([self] ++ self.matches)

/-- Result of `M.match`: a returned value or the raised `ValueError`
(`NoMatch`) carrying the rejected value. -/
inductive EvalResult where
  | ok : Val → EvalResult
  | noMatch : Val → EvalResult

/-- The loop body of `M.match`: try each alternative in order; on the
first whose pattern matches, return `True` if it is non-destructuring,
else its default if present, else the tuple of extracted bindings. -/
def matchLoop : List M → Val → Option Val
  | [], _ => Option.none
  | m :: ms, v =>
      match match_and_bind m.pattern v with
      | Option.none => matchLoop ms v
      | some res =>
          if m.destruct = false then some (.bool true)
          else
            match m.d with
            | some dv => some dv
            | Option.none => some (.tuple res)

/-- The source's `M.match` (also `__eq__`): iterate
`chain(reversed(self.matches), [self])`; if no alternative matches,
raise `ValueError` in destructuring mode, else return `False`. -/
def M.evalMatch (self : M) (value : Val) : EvalResult :=
  match matchLoop (self.matches.reverse ++ [self]) value with
  | some r => .ok r
  | Option.none =>
      if self.destruct = true then .noMatch value else .ok (.bool false)

/-- Outcome contributed by a winning alternative with destructuring
flag `b`, default `dv` and extracted bindings `res`. -/
def altResult (b : Bool) (dv : Option Val) (res : List Val) : Val :=
  if b = false then .bool true
  else
    match dv with
    | some w => w
    | Option.none => .tuple res

mutual
/-- Modelled from the spec: the early-exit sequence walk of §4.2's
short-circuit policy — stop and fail at the first element mismatch,
accumulating bindings only from prior successful elements and
discarding them all on the first failure. Everything outside the
sequence walk is the same computation as `pyMatch`. -/
def matchEarly : Pat → Val → Bool × List Binding
  | .arg n, v => (true, [⟨n, v⟩])
  | p, v =>
    if pyIsinstance p v = false then (false, [])
    else if pyEq p v then (true, [])
    else
      match p, v with
      | .list ps, .list vs =>
          if ps.length ≠ vs.length then (false, []) else earlyZip ps vs
      | .tuple ps, .tuple vs =>
          if ps.length ≠ vs.length then (false, []) else earlyZip ps vs
      | _, _ => (false, [])

/-- Early-exit walk over corresponding elements: the first failing
element aborts with no bindings. -/
def earlyZip : List Pat → List Val → Bool × List Binding
  | [], _ => (true, [])
  | _ :: _, [] => (true, [])
  | p :: ps, v :: vs =>
      let r := matchEarly p v
      if r.1 = false then (false, [])
      else
        let rest := earlyZip ps vs
        if rest.1 = false then (false, [])
        else (true, r.2 ++ rest.2)
end

/-- `match_and_bind` built on the early-exit matcher. -/
def match_and_bind_early (p : Pat) (v : Val) : Option (List Val) :=
  let r := matchEarly p v
  if r.1 = false then Option.none
  else some ((sortBindings (r.2.filter fun b => b.argn.isSome)).map Binding.value)

mutual
/-- Number of index-tagged capture placeholders in a pattern. -/
def countTagged : Pat → Nat
  | .arg (some _) => 1
  | .arg Option.none => 0
  | .int _ => 0
  | .bool _ => 0
  | .str _ => 0
  | .none => 0
  | .list ps => countTaggedList ps
  | .tuple ps => countTaggedList ps
  | .dict es => countTaggedEntries es

def countTaggedList : List Pat → Nat
  | [] => 0
  | p :: ps => countTagged p + countTaggedList ps

def countTaggedEntries : List (String × Pat) → Nat
  | [] => 0
  | e :: es => countTagged e.2 + countTaggedEntries es
end

/-- Modelled from the spec: "matches iff the runtime value has the
same type" — the exact same-type predicate of the spec's Literal rule,
under which a `bool` value does not have the same type as an `int`
literal. Used to compare the spec's rule with the code's
`pyIsinstance`. -/
def sameType : Pat → Val → Bool
  | .int _, .int _ => true
  | .bool _, .bool _ => true
  | .str _, .str _ => true
  | .none, .none => true
  | .list _, .list _ => true
  | .tuple _, .tuple _ => true
  | .dict _, .dict _ => true
  | _, _ => false

/-- Scalar literal patterns: the `Literal` case of the spec's data
model (ints, bools, strings, `None`). -/
def isScalarLit : Pat → Bool
  | .int _ => true
  | .bool _ => true
  | .str _ => true
  | .none => true
  | _ => false

/-! ### Support lemmas about the sequence fold -/
theorem matchZip_false (ps : List Pat) (vs : List Val) (bs : List Binding) :
    matchZip ps vs (false, bs) = (false, bs) := by
  induction ps generalizing vs with
  | nil => simp [matchZip]
  | cons p ps ih =>
    cases vs with
    | nil => simp [matchZip]
    | cons v vs => simpa [matchZip] using ih vs

theorem matchZip_true_acc (ps : List Pat) (vs : List Val) (bs : List Binding) :
    matchZip ps vs (true, bs) =
      ((matchZip ps vs (true, [])).1, bs ++ (matchZip ps vs (true, [])).2) := by
  induction ps generalizing vs bs with
  | nil => simp [matchZip]
  | cons p ps ih =>
    cases vs with
    | nil => simp [matchZip]
    | cons v vs =>
      cases hr : (pyMatch p v).1 with
      | true =>
        simp only [matchZip, Bool.true_eq_false, if_false, hr, if_true, List.nil_append]
        rw [ih vs (bs ++ (pyMatch p v).2), ih vs ((pyMatch p v).2)]
        simp
      | false =>
        simp only [matchZip, Bool.true_eq_false, Bool.false_eq_true, if_false, hr,
          List.nil_append]
        rw [matchZip_false, matchZip_false]
        simp

theorem matchZip_fst (ps : List Pat) (vs : List Val) :
    (matchZip ps vs (true, [])).1 = true ↔
      ∀ pr ∈ ps.zip vs, (pyMatch pr.1 pr.2).1 = true := by
  induction ps generalizing vs with
  | nil => simp [matchZip]
  | cons p ps ih =>
    cases vs with
    | nil => simp [matchZip]
    | cons v vs =>
      cases hr : (pyMatch p v).1 with
      | true =>
        simp only [matchZip, Bool.true_eq_false, if_false, hr, if_true, List.nil_append]
        rw [matchZip_true_acc]
        simp [ih vs, hr]
      | false =>
        simp only [matchZip, Bool.true_eq_false, Bool.false_eq_true, if_false, hr,
          List.nil_append]
        rw [matchZip_false]
        simp [hr]

theorem matchZip_success (ps : List Pat) (vs : List Val)
    (h : ∀ pr ∈ ps.zip vs, (pyMatch pr.1 pr.2).1 = true) :
    matchZip ps vs (true, []) = (true, zipBinds ps vs) := by
  induction ps generalizing vs with
  | nil => simp [matchZip, zipBinds]
  | cons p ps ih =>
    cases vs with
    | nil => simp [matchZip, zipBinds]
    | cons v vs =>
      have hp : (pyMatch p v).1 = true := h (p, v) (by simp)
      simp only [matchZip, zipBinds, Bool.true_eq_false, if_false, hp, if_true,
        List.nil_append]
      rw [matchZip_true_acc, ih vs (fun pr hpr => h pr (by simp [hpr]))]

/-! ### Support lemmas about the alternative loop -/

theorem matchLoop_none_iff (ms : List M) (v : Val) :
    matchLoop ms v = Option.none ↔
      ∀ m ∈ ms, match_and_bind m.pattern v = Option.none := by
  induction ms with
  | nil => simp [matchLoop]
  | cons m ms ih =>
    cases h : match_and_bind m.pattern v with
    | none => simp [matchLoop, h, ih]
    | some res =>
      simp only [matchLoop, h]
      constructor
      · intro hc
        exfalso
        cases hb : m.destruct with
        | false => simp [hb] at hc
        | true =>
          cases hd : m.d with
          | none => simp [hb, hd] at hc
          | some dv => simp [hb, hd] at hc
      · intro hall
        have := hall m (by simp)
        simp [h] at this

theorem matchLoop_append (pre rest : List M) (v : Val)
    (h : ∀ m ∈ pre, match_and_bind m.pattern v = Option.none) :
    matchLoop (pre ++ rest) v = matchLoop rest v := by
  induction pre with
  | nil => simp
  | cons m ms ih =>
    have hm := h m (by simp)
    simp only [List.cons_append, matchLoop, hm]
    exact ih (fun q hq => h q (by simp [hq]))

theorem matchLoop_cons_some (m : M) (ms : List M) (v : Val) (ws : List Val)
    (h : match_and_bind m.pattern v = some ws) :
    matchLoop (m :: ms) v = some (altResult m.destruct m.d ws) := by
  cases hb : m.destruct <;> cases hd : m.d <;>
    simp [matchLoop, h, altResult, hb, hd]

/-! ### Shape lemmas for the structural matcher -/

theorem pyMatch_arg (n : Option Int) (v : Val) :
    pyMatch (.arg n) v = (true, [⟨n, v⟩]) := rfl

theorem pyMatch_scalar (p : Pat) (hp : isScalarLit p = true) (v : Val) :
    pyMatch p v =
      if pyIsinstance p v && pyEq p v then (true, []) else (false, []) := by
  cases p <;> simp [isScalarLit] at hp <;> cases v <;>
    simp [pyMatch, pyIsinstance, pyEq]

theorem pyMatch_dict (es : List (String × Pat)) (v : Val) :
    pyMatch (.dict es) v =
      if pyIsinstance (.dict es) v && pyEq (.dict es) v then (true, [])
      else (false, []) := by
  cases v <;> simp [pyMatch, pyIsinstance]

theorem pyMatch_list_list (ps : List Pat) (vs : List Val) :
    pyMatch (.list ps) (.list vs) =
      if pyEq (.list ps) (.list vs) then (true, [])
      else if ps.length ≠ vs.length then (false, [])
      else matchZip ps vs (true, []) := by
  simp [pyMatch, pyIsinstance]

theorem pyMatch_tuple_tuple (ps : List Pat) (vs : List Val) :
    pyMatch (.tuple ps) (.tuple vs) =
      if pyEq (.tuple ps) (.tuple vs) then (true, [])
      else if ps.length ≠ vs.length then (false, [])
      else matchZip ps vs (true, []) := by
  simp [pyMatch, pyIsinstance]

/-! ### Lengths and tagged-capture counts -/

theorem insertSorted_length (b : Binding) (bs : List Binding) :
    (insertSorted b bs).length = bs.length + 1 := by
  induction bs with
  | nil => simp [insertSorted]
  | cons c cs ih =>
    simp only [insertSorted]
    split
    · simp [ih]
    · simp

theorem foldl_insertSorted_length (bs acc : List Binding) :
    (bs.foldl (fun acc b => insertSorted b acc) acc).length =
      acc.length + bs.length := by
  induction bs generalizing acc with
  | nil => simp
  | cons b bs ih =>
    simp only [List.foldl_cons]
    rw [ih]
    simp [insertSorted_length]
    omega

theorem sortBindings_length (bs : List Binding) :
    (sortBindings bs).length = bs.length := by
  simpa [sortBindings] using foldl_insertSorted_length bs []

theorem pyEqList_length (ps : List Pat) (vs : List Val)
    (h : pyEqList ps vs = true) : ps.length = vs.length := by
  induction ps generalizing vs with
  | nil =>
    cases vs with
    | nil => rfl
    | cons v vs => simp [pyEqList] at h
  | cons p ps ih =>
    cases vs with
    | nil => simp [pyEqList] at h
    | cons v vs =>
      simp only [pyEqList, Bool.and_eq_true] at h
      simp [ih vs h.2]

mutual
theorem pyEq_noTags (p : Pat) (v : Val) (h : pyEq p v = true) :
    countTagged p = 0 := by
  cases p with
  | arg n => cases v <;> simp [pyEq] at h
  | int n => simp [countTagged]
  | bool b => simp [countTagged]
  | str s => simp [countTagged]
  | none => simp [countTagged]
  | list ps =>
    cases v with
    | list vs =>
      simp only [pyEq] at h
      simpa [countTagged] using pyEqList_noTags ps vs h
    | int m => simp [pyEq] at h
    | bool b => simp [pyEq] at h
    | str s => simp [pyEq] at h
    | none => simp [pyEq] at h
    | tuple vs => simp [pyEq] at h
    | dict fs => simp [pyEq] at h
  | tuple ps =>
    cases v with
    | tuple vs =>
      simp only [pyEq] at h
      simpa [countTagged] using pyEqList_noTags ps vs h
    | int m => simp [pyEq] at h
    | bool b => simp [pyEq] at h
    | str s => simp [pyEq] at h
    | none => simp [pyEq] at h
    | list vs => simp [pyEq] at h
    | dict fs => simp [pyEq] at h
  | dict es =>
    cases v with
    | dict fs =>
      simp only [pyEq, Bool.and_eq_true] at h
      simpa [countTagged] using pyEqEntries_noTags es fs h.2
    | int m => simp [pyEq] at h
    | bool b => simp [pyEq] at h
    | str s => simp [pyEq] at h
    | none => simp [pyEq] at h
    | list vs => simp [pyEq] at h
    | tuple vs => simp [pyEq] at h

theorem pyEqList_noTags (ps : List Pat) (vs : List Val)
    (h : pyEqList ps vs = true) : countTaggedList ps = 0 := by
  cases ps with
  | nil => simp [countTaggedList]
  | cons p ps =>
    cases vs with
    | nil => simp [pyEqList] at h
    | cons v vs =>
      simp only [pyEqList, Bool.and_eq_true] at h
      simp [countTaggedList, pyEq_noTags p v h.1, pyEqList_noTags ps vs h.2]

theorem pyEqEntries_noTags (es : List (String × Pat)) (fs : List (String × Val))
    (h : pyEqEntries es fs = true) : countTaggedEntries es = 0 := by
  cases es with
  | nil => simp [countTaggedEntries]
  | cons e es =>
    obtain ⟨k, pe⟩ := e
    simp only [pyEqEntries, Bool.and_eq_true] at h
    obtain ⟨h1, h2⟩ := h
    cases hlk : lookupVal k fs with
    | none => rw [hlk] at h1; simp at h1
    | some w =>
      rw [hlk] at h1
      simp [countTaggedEntries, pyEq_noTags pe w h1, pyEqEntries_noTags es fs h2]
end

mutual
theorem pyMatch_tagCount (p : Pat) (v : Val) (h : (pyMatch p v).1 = true) :
    ((pyMatch p v).2.filter fun b => b.argn.isSome).length = countTagged p := by
  cases p with
  | arg n =>
    cases n with
    | none => simp [pyMatch_arg, countTagged]
    | some k => simp [pyMatch_arg, countTagged]
  | int n =>
    rw [pyMatch_scalar (.int n) rfl]
    split <;> simp [countTagged]
  | bool b =>
    rw [pyMatch_scalar (.bool b) rfl]
    split <;> simp [countTagged]
  | str s =>
    rw [pyMatch_scalar (.str s) rfl]
    split <;> simp [countTagged]
  | none =>
    rw [pyMatch_scalar .none rfl]
    split <;> simp [countTagged]
  | dict es =>
    rw [pyMatch_dict] at h ⊢
    by_cases hc : (pyIsinstance (.dict es) v && pyEq (.dict es) v) = true
    · rw [if_pos hc]
      have h0 := pyEq_noTags (.dict es) v (Bool.and_elim_right hc)
      simpa using h0.symm
    · rw [if_neg hc] at h
      simp at h
  | list ps =>
    cases v with
    | list vs =>
      rw [pyMatch_list_list] at h ⊢
      by_cases heq : pyEq (.list ps) (.list vs) = true
      · rw [if_pos heq]
        have h0 := pyEq_noTags (.list ps) (.list vs) heq
        simpa using h0.symm
      · rw [if_neg heq] at h ⊢
        by_cases hlen : ps.length ≠ vs.length
        · rw [if_pos hlen] at h
          simp at h
        · rw [if_neg hlen] at h ⊢
          have hall := (matchZip_fst ps vs).mp h
          rw [matchZip_success ps vs hall]
          simpa [countTagged] using
            zipBinds_tagCount ps vs (by push_neg at hlen; exact hlen) hall
    | int m => simp [pyMatch, pyIsinstance] at h
    | bool b => simp [pyMatch, pyIsinstance] at h
    | str s => simp [pyMatch, pyIsinstance] at h
    | none => simp [pyMatch, pyIsinstance] at h
    | tuple vs => simp [pyMatch, pyIsinstance] at h
    | dict fs => simp [pyMatch, pyIsinstance] at h
  | tuple ps =>
    cases v with
    | tuple vs =>
      rw [pyMatch_tuple_tuple] at h ⊢
      by_cases heq : pyEq (.tuple ps) (.tuple vs) = true
      · rw [if_pos heq]
        have h0 := pyEq_noTags (.tuple ps) (.tuple vs) heq
        simpa using h0.symm
      · rw [if_neg heq] at h ⊢
        by_cases hlen : ps.length ≠ vs.length
        · rw [if_pos hlen] at h
          simp at h
        · rw [if_neg hlen] at h ⊢
          have hall := (matchZip_fst ps vs).mp h
          rw [matchZip_success ps vs hall]
          simpa [countTagged] using
            zipBinds_tagCount ps vs (by push_neg at hlen; exact hlen) hall
    | int m => simp [pyMatch, pyIsinstance] at h
    | bool b => simp [pyMatch, pyIsinstance] at h
    | str s => simp [pyMatch, pyIsinstance] at h
    | none => simp [pyMatch, pyIsinstance] at h
    | list vs => simp [pyMatch, pyIsinstance] at h
    | dict fs => simp [pyMatch, pyIsinstance] at h

theorem zipBinds_tagCount (ps : List Pat) (vs : List Val)
    (hlen : ps.length = vs.length)
    (h : ∀ pr ∈ ps.zip vs, (pyMatch pr.1 pr.2).1 = true) :
    ((zipBinds ps vs).filter fun b => b.argn.isSome).length = countTaggedList ps := by
  cases ps with
  | nil => simp [zipBinds, countTaggedList]
  | cons p ps =>
    cases vs with
    | nil => simp at hlen
    | cons v vs =>
      simp only [zipBinds, List.filter_append, List.length_append]
      rw [pyMatch_tagCount p v (h (p, v) (by simp)),
        zipBinds_tagCount ps vs (by simpa using hlen) (fun pr hpr => h pr (by simp [hpr]))]
      simp [countTaggedList]
end

theorem match_and_bind_length (p : Pat) (v : Val) (ws : List Val)
    (h : match_and_bind p v = some ws) : ws.length = countTagged p := by
  unfold match_and_bind at h
  by_cases hf : (pyMatch p v).1 = false
  · simp [hf] at h
  · rw [if_neg hf] at h
    injection h with h
    rw [← h]
    simp only [List.length_map, sortBindings_length]
    exact pyMatch_tagCount p v (by simpa using hf)

/-! ### The early-exit matcher agrees with the exhaustive fold -/

theorem matchEarly_arg (n : Option Int) (v : Val) :
    matchEarly (.arg n) v = (true, [⟨n, v⟩]) := rfl

theorem matchEarly_list_list (ps : List Pat) (vs : List Val) :
    matchEarly (.list ps) (.list vs) =
      if pyEq (.list ps) (.list vs) then (true, [])
      else if ps.length ≠ vs.length then (false, [])
      else earlyZip ps vs := by
  simp [matchEarly, pyIsinstance]

theorem matchEarly_tuple_tuple (ps : List Pat) (vs : List Val) :
    matchEarly (.tuple ps) (.tuple vs) =
      if pyEq (.tuple ps) (.tuple vs) then (true, [])
      else if ps.length ≠ vs.length then (false, [])
      else earlyZip ps vs := by
  simp [matchEarly, pyIsinstance]

theorem earlyZip_matchZip (ps : List Pat) (vs : List Val)
    (ih : ∀ q ∈ ps, ∀ w, (matchEarly q w).1 = (pyMatch q w).1 ∧
      ((pyMatch q w).1 = true → (matchEarly q w).2 = (pyMatch q w).2)) :
    (earlyZip ps vs).1 = (matchZip ps vs (true, [])).1 ∧
      ((matchZip ps vs (true, [])).1 = true →
        (earlyZip ps vs).2 = (matchZip ps vs (true, [])).2) := by
  induction ps generalizing vs with
  | nil => simp [earlyZip, matchZip]
  | cons p ps ihl =>
    cases vs with
    | nil => simp [earlyZip, matchZip]
    | cons v vs =>
      obtain ⟨hf, hb⟩ := ih p (by simp) v
      have ihtail := ihl vs (fun q hq w => ih q (by simp [hq]) w)
      cases hr : (pyMatch p v).1 with
      | false =>
        have he : (matchEarly p v).1 = false := by rw [hf, hr]
        simp only [earlyZip, matchZip, he, hr, Bool.true_eq_false, Bool.false_eq_true,
          if_false, if_true, List.nil_append]
        rw [matchZip_false]
        simp
      | true =>
        have he : (matchEarly p v).1 = true := by rw [hf, hr]
        simp only [earlyZip, matchZip, he, hr, Bool.true_eq_false, Bool.false_eq_true,
          if_false, if_true, List.nil_append]
        rw [matchZip_true_acc]
        cases ht : (matchZip ps vs (true, [])).1 with
        | false =>
          have het : (earlyZip ps vs).1 = false := by rw [ihtail.1, ht]
          simp [het]
        | true =>
          have het : (earlyZip ps vs).1 = true := by rw [ihtail.1, ht]
          simp only [het, Bool.true_eq_false, if_false, if_neg]
          refine ⟨trivial, fun _ => ?_⟩
          rw [hb hr, ihtail.2 ht]

theorem matchEarly_pyMatch (p : Pat) (v : Val) :
    (matchEarly p v).1 = (pyMatch p v).1 ∧
      ((pyMatch p v).1 = true → (matchEarly p v).2 = (pyMatch p v).2) := by
  cases p with
  | arg n => simp [matchEarly_arg, pyMatch_arg]
  | int n =>
    have hsame : matchEarly (.int n) v = pyMatch (.int n) v := by
      cases v <;> simp [matchEarly, pyMatch]
    rw [hsame]
    exact ⟨rfl, fun _ => rfl⟩
  | bool b =>
    have hsame : matchEarly (.bool b) v = pyMatch (.bool b) v := by
      cases v <;> simp [matchEarly, pyMatch]
    rw [hsame]
    exact ⟨rfl, fun _ => rfl⟩
  | str s =>
    have hsame : matchEarly (.str s) v = pyMatch (.str s) v := by
      cases v <;> simp [matchEarly, pyMatch]
    rw [hsame]
    exact ⟨rfl, fun _ => rfl⟩
  | none =>
    have hsame : matchEarly .none v = pyMatch .none v := by
      cases v <;> simp [matchEarly, pyMatch]
    rw [hsame]
    exact ⟨rfl, fun _ => rfl⟩
  | dict es =>
    have hsame : matchEarly (.dict es) v = pyMatch (.dict es) v := by
      cases v <;> simp [matchEarly, pyMatch]
    rw [hsame]
    exact ⟨rfl, fun _ => rfl⟩
  | list ps =>
    cases v with
    | list vs =>
      rw [matchEarly_list_list, pyMatch_list_list]
      by_cases heq : pyEq (.list ps) (.list vs) = true
      · rw [if_pos heq, if_pos heq]
        exact ⟨rfl, fun _ => rfl⟩
      · rw [if_neg heq, if_neg heq]
        by_cases hlen : ps.length ≠ vs.length
        · rw [if_pos hlen, if_pos hlen]
          exact ⟨rfl, fun _ => rfl⟩
        · rw [if_neg hlen, if_neg hlen]
          exact earlyZip_matchZip ps vs (fun q hq w => matchEarly_pyMatch q w)
    | int m => simp [matchEarly, pyMatch, pyIsinstance]
    | bool b => simp [matchEarly, pyMatch, pyIsinstance]
    | str s => simp [matchEarly, pyMatch, pyIsinstance]
    | none => simp [matchEarly, pyMatch, pyIsinstance]
    | tuple vs => simp [matchEarly, pyMatch, pyIsinstance]
    | dict fs => simp [matchEarly, pyMatch, pyIsinstance]
  | tuple ps =>
    cases v with
    | tuple vs =>
      rw [matchEarly_tuple_tuple, pyMatch_tuple_tuple]
      by_cases heq : pyEq (.tuple ps) (.tuple vs) = true
      · rw [if_pos heq, if_pos heq]
        exact ⟨rfl, fun _ => rfl⟩
      · rw [if_neg heq, if_neg heq]
        by_cases hlen : ps.length ≠ vs.length
        · rw [if_pos hlen, if_pos hlen]
          exact ⟨rfl, fun _ => rfl⟩
        · rw [if_neg hlen, if_neg hlen]
          exact earlyZip_matchZip ps vs (fun q hq w => matchEarly_pyMatch q w)
    | int m => simp [matchEarly, pyMatch, pyIsinstance]
    | bool b => simp [matchEarly, pyMatch, pyIsinstance]
    | str s => simp [matchEarly, pyMatch, pyIsinstance]
    | none => simp [matchEarly, pyMatch, pyIsinstance]
    | list vs => simp [matchEarly, pyMatch, pyIsinstance]
    | dict fs => simp [matchEarly, pyMatch, pyIsinstance]
termination_by sizeOf p
decreasing_by
  all_goals
    simp_wf
    have := List.sizeOf_lt_of_mem hq
    omega

theorem matchLoop_all_bool (ms : List M) (v : Val)
    (h : ∀ m ∈ ms, m.destruct = false) :
    (matchLoop ms v = some (.bool true) ∧
        ∃ m ∈ ms, (match_and_bind m.pattern v).isSome = true) ∨
      (matchLoop ms v = Option.none ∧
        ∀ m ∈ ms, match_and_bind m.pattern v = Option.none) := by
  induction ms with
  | nil =>
    right
    simp [matchLoop]
  | cons m ms ih =>
    cases hm : match_and_bind m.pattern v with
    | some r =>
      left
      have hd := h m (by simp)
      constructor
      · simp [matchLoop, hm, hd]
      · exact ⟨m, by simp, by simp [hm]⟩
    | none =>
      rcases ih (fun q hq => h q (by simp [hq])) with ⟨h1, m', hm', hs⟩ | ⟨h1, h2⟩
      · left
        refine ⟨by simp [matchLoop, hm, h1], m', by simp [hm'], hs⟩
      · right
        refine ⟨by simp [matchLoop, hm, h1], ?_⟩
        intro q hq
        rcases List.mem_cons.mp hq with rfl | hq'
        · exact hm
        · exact h2 q hq'

theorem pyEq_list_iff (ps : List Pat) (vs : List Val) :
    pyEq (.list ps) (.list vs) = pyEqList ps vs := by
  simp [pyEq]

theorem pyEq_tuple_iff (ps : List Pat) (vs : List Val) :
    pyEq (.tuple ps) (.tuple vs) = pyEqList ps vs := by
  simp [pyEq]

/-! ### Claim theorems -/

/-- C1: a destructuring expression over the pattern
`sequence(captureAt(2), capture(), captureAt(0))` — in the source's
notation `M([A/2, A_, A/0])` — evaluated against `[1, 2, 3]` succeeds
and returns the captured values ordered ascending by capture index, not
by textual position: first the value bound at index 0 (which is `3`),
then the value bound at index 2 (which is `1`); the untagged capture
contributes no output element. -/
theorem claim1_binding_order :
    (M.make (Pat.list [Pat.arg (some 2), Pat.arg Option.none, Pat.arg (some 0)])
        Option.none).evalMatch (Val.list [Val.int 1, Val.int 2, Val.int 3]) =
      .ok (.tuple [Val.int 3, Val.int 1]) := rfl

/-- C5 counterexample: the expression
`M([A/0]) | M([], d=False)` evaluated on `[5]` does not return the bare
value `5`; it returns the one-element tuple `(5,)` (the repository's
own unit tests assert the tuple form, e.g. `(3,)`). -/
theorem claim5_counterexample :
    ((M.make (Pat.list [Pat.arg (some 0)]) Option.none).orOp
        (M.make (Pat.list []) (some (Val.bool false)))).evalMatch
        (Val.list [Val.int 5]) ≠ .ok (Val.int 5) := by
  have he : ((M.make (Pat.list [Pat.arg (some 0)]) Option.none).orOp
      (M.make (Pat.list []) (some (Val.bool false)))).evalMatch
      (Val.list [Val.int 5]) = .ok (.tuple [Val.int 5]) := rfl
  rw [he]
  intro hc
  injection hc with h
  cases h

/-- C5 amended: `makeExpression(sequence(captureAt(0)))
.orElse(makeExpression(sequence(), default=false))` evaluated on the
empty sequence `[]` returns the default `False`; evaluated on `[5]` it
returns the one-element tuple `(5,)` holding the single captured
element (not the bare value `5`). -/
theorem claim5_default_substitution :
    ((M.make (Pat.list [Pat.arg (some 0)]) Option.none).orOp
        (M.make (Pat.list []) (some (Val.bool false)))).evalMatch
        (Val.list []) = .ok (.bool false) ∧
      ((M.make (Pat.list [Pat.arg (some 0)]) Option.none).orOp
        (M.make (Pat.list []) (some (Val.bool false)))).evalMatch
        (Val.list [Val.int 5]) = .ok (.tuple [Val.int 5]) :=
  ⟨rfl, rfl⟩

/-- C6 counterexample: the literal pattern `1` matched against the
runtime value `True` succeeds (Python 2's `isinstance(True, int)` holds
because `bool` subclasses `int`, and `1 == True`), although the value
does not have the same type as the literal — refuting the claim that a
literal matches only values of the same type. -/
theorem claim6_counterexample :
    pyMatch (Pat.int 1) (Val.bool true) = (true, []) ∧
      sameType (Pat.int 1) (Val.bool true) = false :=
  ⟨rfl, rfl⟩

/-- C6 amended: a scalar literal pattern matches a runtime value iff
the value is an instance of the literal's type in Python 2's sense
(exact type, except that `bool` counts as an instance of `int`) and is
equal to it by value; a successful literal match produces no
bindings. -/
theorem claim6_literal_match (p : Pat) (hp : isScalarLit p = true) (v : Val) :
    pyMatch p v =
      if pyIsinstance p v && pyEq p v then (true, []) else (false, []) :=
  pyMatch_scalar p hp v

/-- C6 witness: the amended literal rule applied at the literal `1`
matched against the value `1`. -/
theorem claim6_witness :
    isScalarLit (Pat.int 1) = true ∧
      pyMatch (Pat.int 1) (Val.int 1) =
        if pyIsinstance (Pat.int 1) (Val.int 1) && pyEq (Pat.int 1) (Val.int 1)
        then (true, []) else (false, []) :=
  ⟨rfl, claim6_literal_match (Pat.int 1) rfl (Val.int 1)⟩

/-- C7 counterexample: the sequence pattern `[1, 2]` matched against
the tuple value `(1, 2)` fails although the value is an ordered
sequence of equal length and each element pattern matches the
corresponding runtime element — refuting the claim that those
conditions suffice: the matcher also requires the value to be of the
pattern's own sequence kind (`isinstance(v, type(p))`). -/
theorem claim7_counterexample :
    (pyMatch (Pat.list [Pat.int 1, Pat.int 2])
        (Val.tuple [Val.int 1, Val.int 2])).1 = false ∧
      (pyMatch (Pat.int 1) (Val.int 1)).1 = true ∧
      (pyMatch (Pat.int 2) (Val.int 2)).1 = true :=
  ⟨rfl, rfl, rfl⟩

/-- C8 counterexample: a `dict` pattern — a pattern kind outside the
supported scope — is not reported through any error when matched
against a non-matching value: the structural matcher returns an
ordinary negative outcome `(False, [])`, and a destructuring expression
over it raises the ordinary `NoMatch` (`ValueError`), not an
`UnsupportedPattern` error (no such error exists in the code). -/
theorem claim8_counterexample :
    pyMatch (Pat.dict []) (Val.int 5) = (false, []) ∧
      (M.make (Pat.dict []) Option.none).evalMatch (Val.int 5) =
        .noMatch (Val.int 5) :=
  ⟨rfl, rfl⟩

/-- C2: for every chain built left-to-right by repeated chaining,
`E1 | E2 | E3` (the source's `orElse`), and every input value, the
alternatives' patterns are tried in strict declaration order — `E1`
first, then `E2`, then `E3` — and the first alternative whose pattern
matches determines the result through its own boolean-mode flag,
default, or extracted bindings, with no later alternative consulted;
when none matches the outcome is governed by the final expression's
mode. -/
theorem claim2_declaration_order (p1 p2 p3 : Pat) (d1 d2 d3 : Option Val)
    (b1 b2 b3 : Bool) (v : Val) :
    (((M.mk p1 [] d1 b1).orOp (M.mk p2 [] d2 b2)).orOp
        (M.mk p3 [] d3 b3)).evalMatch v =
      match match_and_bind p1 v with
      | some r => .ok (altResult b1 d1 r)
      | Option.none =>
        match match_and_bind p2 v with
        | some r => .ok (altResult b2 d2 r)
        | Option.none =>
          match match_and_bind p3 v with
          | some r => .ok (altResult b3 d3 r)
          | Option.none =>
            if b3 = true then .noMatch v else .ok (.bool false) := by
  cases h1 : match_and_bind p1 v with
  | some r1 =>
    cases b1 <;> rcases d1 with _ | dv1 <;>
      simp [M.orOp, M.append_, M.evalMatch, M.matches, M.destruct, M.pattern,
        M.d, matchLoop, altResult, h1]
  | none =>
    cases h2 : match_and_bind p2 v with
    | some r2 =>
      cases b2 <;> rcases d2 with _ | dv2 <;>
        simp [M.orOp, M.append_, M.evalMatch, M.matches, M.destruct, M.pattern,
          M.d, matchLoop, altResult, h1, h2]
    | none =>
      cases h3 : match_and_bind p3 v with
      | some r3 =>
        cases b3 <;> rcases d3 with _ | dv3 <;>
          simp [M.orOp, M.append_, M.evalMatch, M.matches, M.destruct, M.pattern,
            M.d, matchLoop, altResult, h1, h2, h3]
      | none =>
        cases b3 <;>
          simp [M.orOp, M.append_, M.evalMatch, M.matches, M.destruct, M.pattern,
            M.d, matchLoop, altResult, h1, h2, h3]

/-- C3: a destructuring (non-inverted) match expression raises
`NoMatch` carrying exactly the rejected input value precisely when
every chained alternative's pattern fails to match that value; on any
other input it returns normally, and any raised `NoMatch` carries the
evaluated value itself. -/
theorem claim3_noMatch_iff (e : M) (v : Val) (hd : e.destruct = true) :
    (e.evalMatch v = .noMatch v ↔
      ∀ m ∈ e.matches.reverse ++ [e], match_and_bind m.pattern v = Option.none) ∧
    ∀ w, e.evalMatch v = .noMatch w → w = v := by
  cases h : matchLoop (e.matches.reverse ++ [e]) v with
  | none =>
    have he : e.evalMatch v = .noMatch v := by
      simp [M.evalMatch, h, hd]
    refine ⟨⟨fun _ => (matchLoop_none_iff _ _).mp h, fun _ => he⟩, fun w hw => ?_⟩
    rw [he] at hw
    injection hw with hw
    exact hw.symm
  | some r =>
    have he : e.evalMatch v = .ok r := by
      simp [M.evalMatch, h]
    constructor
    · constructor
      · intro hc
        rw [he] at hc
        cases hc
      · intro hall
        rw [(matchLoop_none_iff _ _).mpr hall] at h
        cases h
    · intro w hw
      rw [he] at hw
      cases hw

/-- C3 witness: the single-alternative destructuring expression
`M(1)` evaluated on `2` raises `NoMatch` carrying `2`. -/
theorem claim3_witness :
    (M.make (Pat.int 1) Option.none).evalMatch (Val.int 2) =
      .noMatch (Val.int 2) := by
  have h := claim3_noMatch_iff (M.make (Pat.int 1) Option.none) (Val.int 2) rfl
  refine h.1.mpr ?_
  intro m hm
  have hmeq : m = M.make (Pat.int 1) Option.none := by
    simpa [M.make, M.matches] using hm
  subst hmeq
  rfl

/-- C4 counterexample: the chain `M([A/0]) | ~M(5)` is in boolean
(non-destructuring) mode, and on input `[7]` some alternative's
pattern matches, yet evaluation returns the tuple `(7,)` — not `true` —
because the winning alternative is itself destructuring; this refutes
the claim that a boolean-mode expression returns `true` whenever some
alternative matches. -/
theorem claim4_counterexample :
    ((M.make (Pat.list [Pat.arg (some 0)]) Option.none).orOp
        ((M.make (Pat.int 5) Option.none).invert)).destruct = false ∧
      (match_and_bind (Pat.list [Pat.arg (some 0)])
        (Val.list [Val.int 7])).isSome = true ∧
      ((M.make (Pat.list [Pat.arg (some 0)]) Option.none).orOp
        ((M.make (Pat.int 5) Option.none).invert)).evalMatch
        (Val.list [Val.int 7]) = .ok (.tuple [Val.int 7]) ∧
      ((M.make (Pat.list [Pat.arg (some 0)]) Option.none).orOp
        ((M.make (Pat.int 5) Option.none).invert)).evalMatch
        (Val.list [Val.int 7]) ≠ .ok (.bool true) := by
  refine ⟨rfl, rfl, rfl, ?_⟩
  have he : ((M.make (Pat.list [Pat.arg (some 0)]) Option.none).orOp
      ((M.make (Pat.int 5) Option.none).invert)).evalMatch
      (Val.list [Val.int 7]) = .ok (.tuple [Val.int 7]) := rfl
  rw [he]
  intro hc
  injection hc with hc
  cases hc

/-- C4 amended: a match expression in boolean (non-destructuring)
mode never raises `NoMatch`: when no chained alternative's pattern
matches the value it returns `false`, and when some alternative
matches, the result is the first matching alternative's own outcome —
`true` if that alternative is itself boolean-mode, else its default if
present, else its extracted bindings (so a destructuring alternative
chained into a boolean expression can win with a non-boolean
result). -/
theorem claim4_boolean_mode (e : M) (v : Val) (hd : e.destruct = false) :
    (∀ w, e.evalMatch v ≠ .noMatch w) ∧
      ((∀ m ∈ e.matches.reverse ++ [e],
          match_and_bind m.pattern v = Option.none) →
        e.evalMatch v = .ok (.bool false)) ∧
      (∀ pre post m ws, e.matches.reverse ++ [e] = pre ++ m :: post →
        (∀ q ∈ pre, match_and_bind q.pattern v = Option.none) →
        match_and_bind m.pattern v = some ws →
        e.evalMatch v = .ok (altResult m.destruct m.d ws)) := by
  refine ⟨?_, ?_, ?_⟩
  · intro w hw
    cases h : matchLoop (e.matches.reverse ++ [e]) v with
    | some r =>
      have he : e.evalMatch v = .ok r := by simp [M.evalMatch, h]
      rw [he] at hw
      cases hw
    | none =>
      have he : e.evalMatch v = .ok (.bool false) := by
        simp [M.evalMatch, h, hd]
      rw [he] at hw
      cases hw
  · intro hall
    have h := (matchLoop_none_iff (e.matches.reverse ++ [e]) v).mpr hall
    simp [M.evalMatch, h, hd]
  · intro pre post m ws halts hpre hm
    have h1 : matchLoop (e.matches.reverse ++ [e]) v =
        some (altResult m.destruct m.d ws) := by
      rw [halts, matchLoop_append pre (m :: post) v hpre,
        matchLoop_cons_some m post v ws hm]
    simp [M.evalMatch, h1]

/-- C4 witness: the amended boolean-mode rule applied to the mixed
chain `M([A/0]) | ~M(5)`: on `[7]` no `NoMatch` is raised and the
winning destructuring alternative's own outcome `(7,)` is returned; on
`9` every alternative fails and the result is `false`. -/
theorem claim4_witness :
    ((M.make (Pat.list [Pat.arg (some 0)]) Option.none).orOp
        ((M.make (Pat.int 5) Option.none).invert)).evalMatch
        (Val.list [Val.int 7]) ≠ .noMatch (Val.list [Val.int 7]) ∧
      ((M.make (Pat.list [Pat.arg (some 0)]) Option.none).orOp
        ((M.make (Pat.int 5) Option.none).invert)).evalMatch (Val.int 9) =
        .ok (.bool false) ∧
      ((M.make (Pat.list [Pat.arg (some 0)]) Option.none).orOp
        ((M.make (Pat.int 5) Option.none).invert)).evalMatch
        (Val.list [Val.int 7]) = .ok (.tuple [Val.int 7]) := by
  have h7 := claim4_boolean_mode
    ((M.make (Pat.list [Pat.arg (some 0)]) Option.none).orOp
      ((M.make (Pat.int 5) Option.none).invert)) (Val.list [Val.int 7]) rfl
  have h9 := claim4_boolean_mode
    ((M.make (Pat.list [Pat.arg (some 0)]) Option.none).orOp
      ((M.make (Pat.int 5) Option.none).invert)) (Val.int 9) rfl
  refine ⟨h7.1 (Val.list [Val.int 7]), h9.2.1 ?_, ?_⟩
  · intro m hm
    rw [show ((M.make (Pat.list [Pat.arg (some 0)]) Option.none).orOp
          ((M.make (Pat.int 5) Option.none).invert)).matches.reverse ++
          [(M.make (Pat.list [Pat.arg (some 0)]) Option.none).orOp
            ((M.make (Pat.int 5) Option.none).invert)] =
        [M.make (Pat.list [Pat.arg (some 0)]) Option.none,
          (M.make (Pat.list [Pat.arg (some 0)]) Option.none).orOp
            ((M.make (Pat.int 5) Option.none).invert)] from rfl] at hm
    rcases List.mem_cons.mp hm with rfl | hm2
    · rfl
    · rcases List.mem_cons.mp hm2 with rfl | hm3
      · rfl
      · cases hm3
  · exact h7.2.2 []
      [(M.make (Pat.list [Pat.arg (some 0)]) Option.none).orOp
        ((M.make (Pat.int 5) Option.none).invert)]
      (M.make (Pat.list [Pat.arg (some 0)]) Option.none) [Val.int 7] rfl
      (by intro q hq; cases hq) rfl

/-- C7 amended: a sequence pattern matches only a runtime sequence of
its own kind (a list pattern matches only lists, a tuple pattern only
tuples — `isinstance(v, type(p))`); given that, it matches iff the
lengths are equal and either the whole pattern equals the value by
Python equality or every element pattern matches the corresponding
runtime element; in particular, sequences of differing length never
match. -/
theorem claim7_sequence_match (ps : List Pat) (v : Val) :
    ((pyMatch (Pat.list ps) v).1 = true ↔
      ∃ vs, v = Val.list vs ∧ ps.length = vs.length ∧
        (pyEq (Pat.list ps) (Val.list vs) = true ∨
          ∀ pr ∈ ps.zip vs, (pyMatch pr.1 pr.2).1 = true)) ∧
    ((pyMatch (Pat.tuple ps) v).1 = true ↔
      ∃ vs, v = Val.tuple vs ∧ ps.length = vs.length ∧
        (pyEq (Pat.tuple ps) (Val.tuple vs) = true ∨
          ∀ pr ∈ ps.zip vs, (pyMatch pr.1 pr.2).1 = true)) := by
  constructor
  · cases v with
    | list vs =>
      rw [pyMatch_list_list]
      by_cases heq : pyEq (.list ps) (.list vs) = true
      · rw [if_pos heq]
        constructor
        · intro _
          exact ⟨vs, rfl,
            pyEqList_length ps vs (by simpa [pyEq] using heq), Or.inl heq⟩
        · intro _
          rfl
      · rw [if_neg heq]
        by_cases hlen : ps.length ≠ vs.length
        · rw [if_pos hlen]
          constructor
          · intro hc
            simp at hc
          · rintro ⟨vs', hv, hl, _⟩
            injection hv with hv
            subst hv
            exact absurd hl hlen
        · rw [if_neg hlen]
          push_neg at hlen
          constructor
          · intro hz
            exact ⟨vs, rfl, hlen, Or.inr ((matchZip_fst ps vs).mp hz)⟩
          · rintro ⟨vs', hv, hl, hcase⟩
            injection hv with hv
            subst hv
            rcases hcase with hq | hall
            · exact absurd hq heq
            · exact (matchZip_fst ps vs).mpr hall
    | int m => simp [pyMatch, pyIsinstance]
    | bool b => simp [pyMatch, pyIsinstance]
    | str s => simp [pyMatch, pyIsinstance]
    | none => simp [pyMatch, pyIsinstance]
    | tuple vs => simp [pyMatch, pyIsinstance]
    | dict fs => simp [pyMatch, pyIsinstance]
  · cases v with
    | tuple vs =>
      rw [pyMatch_tuple_tuple]
      by_cases heq : pyEq (.tuple ps) (.tuple vs) = true
      · rw [if_pos heq]
        constructor
        · intro _
          exact ⟨vs, rfl,
            pyEqList_length ps vs (by simpa [pyEq] using heq), Or.inl heq⟩
        · intro _
          rfl
      · rw [if_neg heq]
        by_cases hlen : ps.length ≠ vs.length
        · rw [if_pos hlen]
          constructor
          · intro hc
            simp at hc
          · rintro ⟨vs', hv, hl, _⟩
            injection hv with hv
            subst hv
            exact absurd hl hlen
        · rw [if_neg hlen]
          push_neg at hlen
          constructor
          · intro hz
            exact ⟨vs, rfl, hlen, Or.inr ((matchZip_fst ps vs).mp hz)⟩
          · rintro ⟨vs', hv, hl, hcase⟩
            injection hv with hv
            subst hv
            rcases hcase with hq | hall
            · exact absurd hq heq
            · exact (matchZip_fst ps vs).mpr hall
    | int m => simp [pyMatch, pyIsinstance]
    | bool b => simp [pyMatch, pyIsinstance]
    | str s => simp [pyMatch, pyIsinstance]
    | none => simp [pyMatch, pyIsinstance]
    | list vs => simp [pyMatch, pyIsinstance]
    | dict fs => simp [pyMatch, pyIsinstance]

/-- C8 amended: the code defines no `UnsupportedPattern` error. An
out-of-scope pattern kind such as a dict is handled by the generic
path: it succeeds (with no bindings) only when the value is an instance
of its type and equal to it by Python equality, and otherwise yields an
ordinary non-match; at expression level a destructuring expression over
it either returns the empty binding tuple or raises the ordinary
`NoMatch`. -/
theorem claim8_no_unsupported_error (es : List (String × Pat)) (v : Val) :
    pyMatch (Pat.dict es) v =
        (if pyIsinstance (Pat.dict es) v && pyEq (Pat.dict es) v then (true, [])
         else (false, [])) ∧
      ((M.make (Pat.dict es) Option.none).evalMatch v = .ok (.tuple []) ∨
        (M.make (Pat.dict es) Option.none).evalMatch v = .noMatch v) := by
  refine ⟨pyMatch_dict es v, ?_⟩
  by_cases hc : (pyIsinstance (Pat.dict es) v && pyEq (Pat.dict es) v) = true
  · left
    have hm : match_and_bind (Pat.dict es) v = some [] := by
      unfold match_and_bind
      rw [pyMatch_dict, if_pos hc]
      simp [sortBindings]
    simp [M.evalMatch, M.make, M.matches, M.destruct, M.pattern, M.d,
      matchLoop, hm]
  · right
    have hm : match_and_bind (Pat.dict es) v = Option.none := by
      unfold match_and_bind
      rw [pyMatch_dict, if_neg hc]
      simp
    simp [M.evalMatch, M.make, M.matches, M.destruct, M.pattern, M.d,
      matchLoop, hm]

/-- C9: for every pattern and value, the reference's exhaustive fold
over all sequence element pairs yields exactly the same observable
outcome as the early-exit variant that stops at the first element
mismatch: the matched verdicts coincide, and the binding sequences
extracted by `match_and_bind` are identical, because bindings
accumulated before a failure are discarded. -/
theorem claim9_fold_equivalence (p : Pat) (v : Val) :
    (matchEarly p v).1 = (pyMatch p v).1 ∧
      match_and_bind_early p v = match_and_bind p v := by
  obtain ⟨hf, hb⟩ := matchEarly_pyMatch p v
  refine ⟨hf, ?_⟩
  unfold match_and_bind match_and_bind_early
  cases hr : (pyMatch p v).1 with
  | false =>
    have he : (matchEarly p v).1 = false := by rw [hf, hr]
    simp [he, hr]
  | true =>
    have he : (matchEarly p v).1 = true := by rw [hf, hr]
    simp [he, hr, hb hr]

/-- C10: for every destructuring expression, when the winning
alternative (the first whose pattern matches) is destructuring and
carries no default, evaluation returns a tuple — never a bare scalar,
a list, or the no-match outcome — whose length equals the number of
index-tagged captures in that winning alternative's pattern. -/
theorem claim10_tuple_arity (e : M) (v : Val) (pre post : List M) (m : M)
    (ws : List Val)
    (halts : e.matches.reverse ++ [e] = pre ++ m :: post)
    (hpre : ∀ q ∈ pre, match_and_bind q.pattern v = Option.none)
    (hm : match_and_bind m.pattern v = some ws)
    (hdes : m.destruct = true) (hnod : m.d = Option.none) :
    e.evalMatch v = .ok (.tuple ws) ∧ ws.length = countTagged m.pattern := by
  have h1 : matchLoop (e.matches.reverse ++ [e]) v = some (.tuple ws) := by
    rw [halts, matchLoop_append pre (m :: post) v hpre,
      matchLoop_cons_some m post v ws hm]
    simp [altResult, hdes, hnod]
  exact ⟨by simp [M.evalMatch, h1], match_and_bind_length m.pattern v ws hm⟩

/-- C10 witness: `M([A/0])` on `[5]` wins with one tagged capture and
returns the one-element tuple `(5,)`. -/
theorem claim10_witness :
    (M.make (Pat.list [Pat.arg (some 0)]) Option.none).evalMatch
        (Val.list [Val.int 5]) = .ok (.tuple [Val.int 5]) ∧
      ([Val.int 5] : List Val).length =
        countTagged (Pat.list [Pat.arg (some 0)]) :=
  claim10_tuple_arity (M.make (Pat.list [Pat.arg (some 0)]) Option.none)
    (Val.list [Val.int 5]) [] []
    (M.make (Pat.list [Pat.arg (some 0)]) Option.none) [Val.int 5] rfl
    (by intro q hq; simp at hq) rfl rfl rfl
